import Mathlib

/-!
Shallow embedding of `src/plots/cartesian/set_convert.js` — the plotly.js
axis coordinate-conversion and scaling engine — together with theorems
settling the specification's claims about it.

Modelling conventions:
* JS numbers are embedded as exact rationals (`ℚ`); the logarithmic
  linearization, which is genuinely transcendental, is embedded over `ℝ`.
* The sentinel `BADNUM` ("no valid position"), together with the JS
  `undefined`/`NaN` values that the conversion pipeline funnels into it,
  is embedded as `Option.none`; a valid numeric result `v` is `some v`.
* JS values reaching the conversion functions are embedded as `JVal`:
  a number, a string, or `null`/`undefined` (collapsed into one
  constructor, since every modelled code path treats them identically).
* Helpers that live outside the excerpted sources (`Lib.cleanNumber`,
  `Lib.dateTime2ms`, `Lib.minRowLength`, `fast-isnumeric`, the numerical
  and cartesian constants modules) are modelled from the spec, as marked
  on each definition.  Numeric-string coercion (`isNumeric("5")`) is not
  modelled: numeric inputs are represented with the `num` constructor.
-/

namespace SetConvert

/-- JS values reaching the axis conversion functions: a number (exact
rational), a string, or the invalid values `null`/`undefined` (collapsed,
as every modelled path treats them identically). -/
inductive JVal where
  | num (q : ℚ)
  | str (s : String)
  | null
  deriving DecidableEq

/-- Modelled from the spec: `LOG_CLIP`, the fixed multiple of axis lengths
used to clip non-positive values on log axes (from `constants/numerical.js`,
which is not among the excerpted sources; its library value is 10). -/
def LOG_CLIP : ℝ := 10

/-- Modelled from the spec: `FP_SAFE`, the fixed safe floating-point
magnitude, `Number.MAX_VALUE / 10000 = (2^1024 - 2^971) / 10000`
(from `constants/numerical.js`, not among the excerpted sources). -/
def FP_SAFE : ℚ := (2 ^ 1024 - 2 ^ 971) / 10000

/-- Modelled from the spec: the default x-axis range `DFLTRANGEX` from the
cartesian constants module (not among the excerpted sources). -/
def DFLTRANGEX : ℚ × ℚ := (-1, 6)

/-- Modelled from the spec: the default y-axis range `DFLTRANGEY` from the
cartesian constants module (not among the excerpted sources). -/
def DFLTRANGEY : ℚ × ℚ := (-1, 4)

/-- Modelled from the spec: `fast-isnumeric` — whether a JS value has a
numeric interpretation.  Numeric-string coercion is not modelled. -/
def isNumericJV : JVal → Bool
  | .num _ => true
  | _ => false

/-- Modelled from the spec: `Lib.cleanNumber` — parse a value as a number,
returning `BADNUM` on unparseable input (`Lib` is not among the excerpted
sources). -/
def cleanNumber : JVal → Option ℚ
  | .num q => some q
  | _ => none

/-- JS addition on possibly-invalid numbers: any operation touching
`undefined`/`NaN` (`none`) yields `NaN` (`none`). -/
def jAdd : Option ℚ → Option ℚ → Option ℚ
  | some a, some b => some (a + b)
  | _, _ => none

/-- JS subtraction on possibly-invalid numbers. -/
def jSub : Option ℚ → Option ℚ → Option ℚ
  | some a, some b => some (a - b)
  | _, _ => none

/-- JS multiplication on possibly-invalid numbers. -/
def jMul : Option ℚ → Option ℚ → Option ℚ
  | some a, some b => some (a * b)
  | _, _ => none

/-- JS division on possibly-invalid numbers; division by zero (whose JS
result `±Infinity`/`NaN` is observed in the modelled code only through
`isFinite`) also yields `none`. -/
def jDiv : Option ℚ → Option ℚ → Option ℚ
  | some a, some b => if b = 0 then none else some (a / b)
  | _, _ => none

/-- `d3.round(x, 2)` (external d3 helper): round to two decimal digits.
JS `Math.round` rounds half up, exactly Mathlib's `round = ⌊x + 1/2⌋`. -/
def d3Round2 {α : Type} [LinearOrderedField α] [FloorRing α] (x : α) : α :=
  ((round (x * 100) : ℤ) : α) / 100

/-- The numeric core of `l2p` from `set_convert.js`:
`d3.round(ax._b + ax._m * v, 2)`. -/
def l2pVal {α : Type} [LinearOrderedField α] [FloorRing α] (b m v : α) : α :=
  d3Round2 (b + m * v)

/-- `l2p` from `set_convert.js`: linearized value to pixel; non-numeric
input (`!isNumeric(v)`) gives `BADNUM`. -/
def l2p {α : Type} [LinearOrderedField α] [FloorRing α]
    (b m : α) : Option α → Option α
  | some v => some (l2pVal b m v)
  | none => none

/-- `p2l` from `set_convert.js`: pixel back to linearized value,
`(px - b) / m`.  (For `m = 0` JS yields `±Infinity`; field division by
zero yields `0` here; no modelled claim evaluates `p2l` at `m = 0`.) -/
def p2l {α : Type} [LinearOrderedField α] [FloorRing α] (b m px : α) : α :=
  (px - b) / m

/-- Linear axis `d2l` (source:
`ax.d2r = ax.r2d = ax.d2c = ax.r2c = ax.d2l = ax.r2l = cleanNumber`). -/
def lin_d2l : JVal → Option ℚ := cleanNumber

/-- Linear axis `d2p` (source:
`ax.d2p = ax.r2p = function(v) { return ax.l2p(cleanNumber(v)); }`). -/
def lin_d2p (b m : ℚ) (v : JVal) : Option ℚ := l2p b m (cleanNumber v)

/-- `toLog` from `set_convert.js`: for `v > 0` the base-10 logarithm
(`Math.log(v) / Math.LN10`); for `v <= 0` with clipping enabled and a
2-element range, `0.5 * (r0 + r1 - 2 * LOG_CLIP * Math.abs(r0 - r1))`;
otherwise `BADNUM`. -/
noncomputable def toLog (range : Option (ℝ × ℝ)) (v : ℝ) (clip : Bool) :
    Option ℝ :=
  if 0 < v then some (Real.log v / Real.log 10)
  else if clip then
    match range with
    | some (r0, r1) => some (0.5 * (r0 + r1 - 2 * LOG_CLIP * |r0 - r1|))
    | none => none
  else none

/-- Log axis `d2l`/`d2r` (source:
`function(v, clip) { return toLog(cleanNumber(v), clip); }`;
`toLog` applied to `BADNUM` falls through every branch to `BADNUM`). -/
noncomputable def log_d2l (range : Option (ℝ × ℝ)) (v : JVal) (clip : Bool) :
    Option ℝ :=
  match cleanNumber v with
  | some q => toLog range (q : ℝ) clip
  | none => none

/-- Log axis `d2p` (source:
`ax.d2p = function(v, clip) { return ax.l2p(ax.d2r(v, clip)); }`). -/
noncomputable def log_d2p (range : Option (ℝ × ℝ)) (b m : ℝ) (v : JVal)
    (clip : Bool) : Option ℝ :=
  l2p b m (log_d2l range v clip)

/-- Modelled from the spec: the wrapped `dateTime2ms` (`dt2ms`);
`Lib.dateTime2ms` is not among the excerpted sources.  Millisecond numbers
are accepted as-is (the tenth-of-millisecond rounding of the source's
numeric fallback is not modelled); date-string and calendar parsing is not
modelled, so strings count as unparseable and give `BADNUM`. -/
def dt2ms : JVal → Option ℚ
  | .num q => some q
  | _ => none

/-- Date axis `d2l`/`d2c` is the wrapped `dt2ms`. -/
def date_d2l : JVal → Option ℚ := dt2ms

/-- Date axis `d2p` (source: `ax.d2p = ax.r2p =
function(v, _, calendar) { return ax.l2p(dt2ms(v, 0, calendar)); }`). -/
def date_d2p (b m : ℚ) (v : JVal) : Option ℚ := l2p b m (dt2ms v)

/-- JS object property lookup: an association-list lookup by decidable
equality (object keys are unique, so list order is immaterial). -/
def jsLookup {κ β : Type} [DecidableEq κ] : List (κ × β) → κ → Option β
  | [], _ => none
  | (a, i) :: rest, k => if a = k then some i else jsLookup rest k

/-- `isValidCategory` from `set_convert.js`:
`v !== null && v !== undefined`. -/
def isValidCategory : JVal → Bool
  | .null => false
  | _ => true

/-- Category registry state: `ax._categories` (insertion-ordered labels)
and `ax._categoriesMap` (label → index).  The JS map is an object keyed by
the stringified label; it is embedded as an association list keyed by the
value itself (cross-type key collisions such as `5` vs `"5"` are not
modelled).  An absent `_categoriesMap`, which the source lazily creates,
behaves as — and is collapsed into — an empty one. -/
structure CatState where
  categories : List JVal
  categoriesMap : List (JVal × ℕ)
  deriving DecidableEq

/-- A fresh category registry. -/
def emptyCat : CatState := ⟨[], []⟩

/-- `setCategoryIndex` from `set_convert.js`: return the index of category
`v`, appending it at the next integer index if it is not already there;
invalid labels give `BADNUM` and are not inserted.  Returns the updated
registry together with the result. -/
def setCategoryIndex (s : CatState) (v : JVal) : CatState × Option ℕ :=
  if isValidCategory v then
    match jsLookup s.categoriesMap v with
    | some i => (s, some i)
    | none =>
      ({ categories := s.categories ++ [v],
         categoriesMap := s.categoriesMap ++ [(v, s.categories.length)] },
       some s.categories.length)
  else (s, none)

/-- Category axis `d2l`/`d2c` is `setCategoryIndex`; its index result used
as a linearized position. -/
def cat_d2l (s : CatState) (v : JVal) : CatState × Option ℚ :=
  let r := setCategoryIndex s v
  (r.1, r.2.map (fun i => (i : ℚ)))

/-- Run `setCategoryIndex` over a list of labels in order, collecting the
returned indices (the call pattern of the category-axis calc pass). -/
def insertSeq (s : CatState) : List JVal → CatState × List (Option ℕ)
  | [] => (s, [])
  | v :: vs =>
    let r := setCategoryIndex s v
    let rest := insertSeq r.1 vs
    (rest.1, r.2 :: rest.2)

/-- `getCategoryIndex` from `set_convert.js`: pure registry lookup, never
mutates. -/
def getCategoryIndex (s : CatState) (v : JVal) : Option ℕ :=
  jsLookup s.categoriesMap v

/-- `getCategoryPosition` from `set_convert.js`: the `d2l`/`d2c` variant
that will not add categories but lets numbers pass through as linearized
positions; an unknown non-numeric label gives `undefined` (`none`). -/
def getCategoryPosition (s : CatState) (v : JVal) : Option ℚ :=
  match getCategoryIndex s v with
  | some i => some (i : ℚ)
  | none =>
    match v with
    | .num q => some q
    | _ => none

/-- `ax.fraction2r` instantiated at a category axis: `r2l` is
`getCategoryPosition` and `l2r` is `Lib.ensureNumber`, which on the
computed number-or-`NaN` is the identity of this embedding:
`l2r(rl0 + v * (rl1 - rl0))`. -/
def fraction2rCat (s : CatState) (range : JVal × JVal) (v : ℚ) : Option ℚ :=
  let rl0 := getCategoryPosition s range.1
  let rl1 := getCategoryPosition s range.2
  jAdd rl0 (jMul (some v) (jSub rl1 rl0))

/-- Category axis `r2c` (source: `var index = getCategoryPosition(v);
return index !== undefined ? index : ax.fraction2r(0.5);`). -/
def cat_r2c (s : CatState) (range : JVal × JVal) (v : JVal) : Option ℚ :=
  match getCategoryPosition s v with
  | some i => some i
  | none => fraction2rCat s range (1 / 2)

/-- Category axis `d2p` (source:
`ax.d2p = function(v) { return ax.l2p(ax.r2c(v)); }`; `ax.r2p = ax.d2p`). -/
def cat_d2p (s : CatState) (range : JVal × JVal) (b m : ℚ) (v : JVal) :
    Option ℚ :=
  l2p b m (cat_r2c s range v)

/-- Multicategory registry: `ax._categories` holds two-element label
arrays.  It is embedded with pair keys; the JS compound string key
`"v0,v1"` is not modelled, so a scalar never collides with a pair key. -/
structure MCatState where
  categories : List (JVal × JVal)
  categoriesMap : List ((JVal × JVal) × ℕ)
  deriving DecidableEq

/-- A fresh multicategory registry. -/
def emptyMCat : MCatState := ⟨[], []⟩

/-- `setCategoryIndex` applied to a two-element array (multicategory pair);
arrays are never `null`/`undefined`, so the validity test always passes. -/
def setCategoryIndexMC (s : MCatState) (p : JVal × JVal) :
    MCatState × Option ℕ :=
  match jsLookup s.categoriesMap p with
  | some i => (s, some i)
  | none =>
    ({ categories := s.categories ++ [p],
       categoriesMap := s.categoriesMap ++ [(p, s.categories.length)] },
     some s.categories.length)

/-- `getCategoryIndex` at a pair key: pure lookup, never mutates. -/
def getCategoryIndexMC (s : MCatState) (p : JVal × JVal) : Option ℕ :=
  jsLookup s.categoriesMap p

/-- `setMultiCategoryIndex` from `set_convert.js`: the bulk
data-to-calcdata conversion over a two-row array; each pair is looked up
with `getCategoryIndex` (never inserted); out-of-range entries read as
`undefined`. -/
def setMultiCategoryIndex (s : MCatState) (row0 row1 : List JVal) (len : ℕ) :
    List (Option ℕ) :=
  (List.range len).map (fun i =>
    getCategoryIndexMC s (row0.getD i .null, row1.getD i .null))

/-- `getCategoryPosition` on a multicategory axis at a scalar value: the
stringified scalar never matches a pair key in this embedding (comma
collisions are not modelled), so the lookup misses and `isNumeric`
pass-through decides the result. -/
def getCategoryPositionMC (_s : MCatState) (v : JVal) : Option ℚ :=
  match v with
  | .num q => some q
  | _ => none

/-- `ax.fraction2r` instantiated at a multicategory axis (`r2l` is the
scalar `getCategoryPosition`). -/
def fraction2rMC (s : MCatState) (range : JVal × JVal) (v : ℚ) : Option ℚ :=
  let rl0 := getCategoryPositionMC s range.1
  let rl1 := getCategoryPositionMC s range.2
  jAdd rl0 (jMul (some v) (jSub rl1 rl0))

/-- Multicategory axis `r2c` at a scalar value (source: `var index =
getCategoryPosition(v); return index !== undefined ? index :
ax.fraction2r(0.5);`). -/
def mc_r2c (s : MCatState) (range : JVal × JVal) (v : JVal) : Option ℚ :=
  match getCategoryPositionMC s v with
  | some i => some i
  | none => fraction2rMC s range (1 / 2)

/-- Multicategory axis `d2p` at a scalar value (source:
`ax.d2p = function(v) { return ax.l2p(ax.r2c(v)); }`; `ax.r2p = ax.d2p`). -/
def mc_d2p (s : MCatState) (range : JVal × JVal) (b m : ℚ) (v : JVal) :
    Option ℚ :=
  l2p b m (mc_r2c s range v)

/-- Multicategory `r2c` when the value is a two-element array: the JS
object lookup `_categoriesMap[v]` stringifies the array into the compound
pair key, so a registered pair resolves to its index; arrays are not
numeric, so otherwise the range-midpoint fallback applies. -/
def mc_r2cPair (s : MCatState) (range : JVal × JVal) (p : JVal × JVal) :
    Option ℚ :=
  match getCategoryIndexMC s p with
  | some i => some (i : ℚ)
  | none => fraction2rMC s range (1 / 2)

/-- Multicategory `d2p` at a two-element array argument. -/
def mc_d2pPair (s : MCatState) (range : JVal × JVal) (b m : ℚ)
    (p : JVal × JVal) : Option ℚ :=
  l2p b m (mc_r2cPair s range p)

/-- JS `a || b` for the optional numeric `trace._length` (both `undefined`
and `0` are falsy). -/
def jsOrNat : Option ℕ → ℕ → ℕ
  | some n, fb => if n = 0 then fb else n
  | none, fb => fb

/-- Modelled from the spec: `Lib.minRowLength` on a two-row array — the
minimum of the two row lengths (`Lib` is not among the excerpted
sources). -/
def minRowLength2 (rows : List JVal × List JVal) : ℕ :=
  min rows.1.length rows.2.length

/-- One trace's contribution to `ax.setupMultiCategory`: the two-row data
array for the axis letter, when present (`none` also covers rows that are
not both arrays, which the source skips identically), and the trace's
`_length`. -/
structure MCTrace where
  field? : Option (List JVal × List JVal)
  len? : Option ℕ

/-- The accumulator of `setupMultiCategory`'s gathering loop:
`seen[0]`/`seen[1]` assign appearance-order ranks to first- and
second-level keys (the counter of the source is the map's size), and
`list` collects the valid pairs in encounter order. -/
structure MCAcc where
  seen0 : List (JVal × ℕ)
  seen1 : List (JVal × ℕ)
  list : List (JVal × JVal)

/-- `if(!(v in seen)) seen[v] = cnt++` — rank a key on first appearance. -/
def insertRank (m : List (JVal × ℕ)) (k : JVal) : List (JVal × ℕ) :=
  if (jsLookup m k).isSome then m else m ++ [(k, m.length)]

/-- The per-trace gathering loop of `ax.setupMultiCategory`. -/
def mcGatherTrace (acc : MCAcc) (t : MCTrace) : MCAcc :=
  match t.field? with
  | none => acc
  | some rows =>
    (List.range (jsOrNat t.len? (minRowLength2 rows))).foldl
      (fun a j =>
        let v0 := rows.1.getD j .null
        let v1 := rows.2.getD j .null
        if isValidCategory v0 && isValidCategory v1 then
          { seen0 := insertRank a.seen0 v0,
            seen1 := insertRank a.seen1 v1,
            list := a.list ++ [(v0, v1)] }
        else a)
      acc

/-- The full gathering pass of `ax.setupMultiCategory` over the
contributing traces (the source gathers `_traceIndices`, concatenated with
those of the other axes of a match group; the embedding receives the
gathered trace list directly). -/
def mcGather (ts : List MCTrace) : MCAcc :=
  ts.foldl mcGatherTrace ⟨[], [], []⟩

/-- Rank of a key in a `seen` map (every key of a gathered pair is
present; `getD 0` only standardizes the unreachable miss). -/
def rankOf (m : List (JVal × ℕ)) (k : JVal) : ℕ := (jsLookup m k).getD 0

/-- The sort comparator of `ax.setupMultiCategory` as a `≤`-style test:
order pairs by first-key rank, breaking ties by second-key rank. -/
def pairLe (acc : MCAcc) (a b : JVal × JVal) : Bool :=
  decide (rankOf acc.seen0 a.1 < rankOf acc.seen0 b.1) ||
    (decide (rankOf acc.seen0 a.1 = rankOf acc.seen0 b.1) &&
      decide (rankOf acc.seen1 a.2 ≤ rankOf acc.seen1 b.2))

/-- The sorted pair list of `ax.setupMultiCategory`: JS `list.sort(cmp)`
(a stable sort) embedded as a stable insertion sort.  Ties occur only
between pairs whose keys coincide, which the registry then maps to one
entry, so tie order is immaterial to the registered categories. -/
def mcSortedList (ts : List MCTrace) : List (JVal × JVal) :=
  let acc := mcGather ts
  List.insertionSort (fun a b => pairLe acc a b = true) acc.list

/-- `ax.setupMultiCategory` from `set_convert.js`: gather the valid pairs
of the contributing traces, rank their keys in appearance order, sort the
pairs by (first-key rank, second-key rank) and register them in that
order.  (The source runs this only on multicategory axes, reusing the
match-group registry when one exists; the embedding starts from the given
registry `s`.) -/
def setupMultiCategory (s : MCatState) (ts : List MCTrace) : MCatState :=
  (mcSortedList ts).foldl (fun st p => (setCategoryIndexMC st p).1) s

/-- The numeric clamp of `ax.cleanRange`:
`if(range[i] < -FP_SAFE) range[i] = -FP_SAFE;
else if(range[i] > FP_SAFE) range[i] = FP_SAFE;`. -/
def clampFP (v : ℚ) : ℚ :=
  if v < -FP_SAFE then -FP_SAFE else if v > FP_SAFE then FP_SAFE else v

/-- The split increment of `ax.cleanRange`:
`Math.max(1, Math.abs(range[0] * 1e-6))`. -/
def incOf (r0 : ℚ) : ℚ := max 1 |r0 * (1 / 1000000)|

/-- The numeric (non-date) branch of `ax.cleanRange`.  Entries are
embedded as number-or-invalid (`Option ℚ`); numeric strings, which the
original carries through with JS coercion quirks, are not modelled.  A
missing or non-2-element range is replaced by the default; the source's
two loop iterations are written out: synthesize a missing endpoint from
the other one (×0.1 for the first, ×10 for the second), clamp to
`±FP_SAFE`, and after each iteration split strictly-equal endpoints by
`incOf`. -/
def cleanRangeNumeric (dflt : ℚ × ℚ) (range? : Option (List (Option ℚ))) :
    ℚ × ℚ :=
  match range? with
  | none => dflt
  | some rng =>
    match rng with
    | [e0, e1] =>
      match e0, e1 with
      | none, none => dflt
      | _, _ =>
        -- i = 0
        let a0 : ℚ :=
          match e0 with
          | some v => v
          | none => (e1.getD 0) * (1 / 10)
        let a1 := clampFP a0
        -- `range[0] === range[1]` compares the clamped first entry with
        -- the still-unprocessed second one
        let st : ℚ × Option ℚ :=
          if e1 = some a1 then (a1 - incOf a1, some (a1 + incOf a1))
          else (a1, e1)
        -- i = 1
        let c0 := st.1
        let c1 : ℚ :=
          match st.2 with
          | some v => v
          | none => c0 * 10
        let c2 := clampFP c1
        if c0 = c2 then (c0 - incOf c0, c2 + incOf c0) else (c0, c2)
    | _ => dflt

/-- The plot viewport rectangle `fullLayout._size` (left, top, width,
height). -/
structure PlotSize where
  l : ℚ
  t : ℚ
  w : ℚ
  h : ℚ

/-- The axis letter (`ax._id.charAt(0)`). -/
inductive AxLetter where
  | x
  | y
  deriving DecidableEq

/-- The derived scale parameters of an axis: `_offset`, `_length`, `_m`,
`_b`. -/
structure LinScale where
  offset : ℚ
  length : ℚ
  m : ℚ
  b : ℚ
  deriving DecidableEq

/-- The `cleanRange` default for a non-date axis
(`axLetter === 'y' ? DFLTRANGEY : DFLTRANGEX`). -/
def scaleDflt : AxLetter → ℚ × ℚ
  | .x => DFLTRANGEX
  | .y => DFLTRANGEY

/-- `ax._length` as computed by `setScale`:
the domain fraction of the relevant viewport dimension. -/
def scaleLength (gs : PlotSize) (domain : ℚ × ℚ) : AxLetter → ℚ
  | .x => gs.w * (domain.2 - domain.1)
  | .y => gs.h * (domain.2 - domain.1)

/-- `ax._offset` as computed by `setScale`. -/
def scaleOffset (gs : PlotSize) (domain : ℚ × ℚ) : AxLetter → ℚ
  | .x => gs.l + domain.1 * gs.w
  | .y => gs.t + (1 - domain.2) * gs.h

/-- `ax._m` as computed by `setScale`: `_length / (rl1 - rl0)` for x,
`_length / (rl0 - rl1)` for y (`none` embeds the non-finite result of a
zero denominator). -/
def scaleM (gs : PlotSize) (domain : ℚ × ℚ) (letter : AxLetter)
    (rl0 rl1 : ℚ) : Option ℚ :=
  match letter with
  | .x => jDiv (some (scaleLength gs domain .x)) (some (rl1 - rl0))
  | .y => jDiv (some (scaleLength gs domain .y)) (some (rl0 - rl1))

/-- `ax._b` as computed by `setScale`: `-m * rl0` for x, `-m * rl1` for y;
non-finite `m` propagates. -/
def scaleB (letter : AxLetter) (m? : Option ℚ) (rl0 rl1 : ℚ) : Option ℚ :=
  match letter, m? with
  | _, none => none
  | .x, some m => some (-(m * rl0))
  | .y, some m => some (-(m * rl1))

/-- `ax.setScale` for a linear axis: clean the range, linearize its
endpoints (`r2l` for a linear axis is `cleanNumber`, the identity on the
numeric entries `cleanRange` produces), derive offset, length, slope and
intercept, and fail with the source's error exactly when the slope or
intercept is non-finite or the length is negative.  The `overlaying`
domain inheritance and the `_r` pre-interaction range are outside the
embedded fragment. -/
def setScaleLin (gs : PlotSize) (domain : ℚ × ℚ) (letter : AxLetter)
    (range? : Option (List (Option ℚ))) : Except String LinScale :=
  let r := cleanRangeNumeric (scaleDflt letter) range?
  let rl0 := r.1
  let rl1 := r.2
  let len := scaleLength gs domain letter
  let m? := scaleM gs domain letter rl0 rl1
  let b? := scaleB letter m? rl0 rl1
  match m?, b? with
  | some m, some b =>
    if len < 0 then .error "Something went wrong with axis scaling"
    else .ok ⟨scaleOffset gs domain letter, len, m, b⟩
  | _, _ => .error "Something went wrong with axis scaling"

/-- A trace as `ax.makeCalcdata` reads it: the positional data arrays,
the sequence start (`x0`/`y0`) and step (`dx`/`dy`) attributes, and the
authoritative `_length`. -/
structure Trace where
  x : Option (List JVal)
  y : Option (List JVal)
  x0 : Option JVal
  y0 : Option JVal
  dx : Option JVal
  dy : Option JVal
  _length : Option ℕ

/-- `trace[axLetter]`. -/
def traceField (tr : Trace) : AxLetter → Option (List JVal)
  | .x => tr.x
  | .y => tr.y

/-- `trace[axLetter + '0']`. -/
def traceField0 (tr : Trace) : AxLetter → Option JVal
  | .x => tr.x0
  | .y => tr.y0

/-- `trace['d' + axLetter]`. -/
def traceFieldD (tr : Trace) : AxLetter → Option JVal
  | .x => tr.dx
  | .y => tr.dy

/-- `{x: 'y', y: 'x'}[axLetter]` — the companion axis letter. -/
def otherLetter : AxLetter → AxLetter
  | .x => .y
  | .y => .x

/-- JS truthiness of the values a `d`+axis attribute can hold (`0`, `""`,
`null`/`undefined` are falsy). -/
def jsTruthy : JVal → Bool
  | .num q => q != 0
  | .str s => s != ""
  | .null => false

/-- `Number(v)` on a truthy step attribute; non-numeric strings give `NaN`
(numeric-string coercion is not modelled). -/
def jsNumber : JVal → Option ℚ
  | .num q => some q
  | _ => none

/-- Modelled from the spec: `Lib.minRowLength` on a flat (non-nested) data
array — no row is itself an array, so the minimum is vacuous and the
result is 0 (the flat-array branch thus relies on `trace._length`). -/
def minRowLengthFlat (_l : List JVal) : ℕ := 0

/-- The sequence start of `makeCalcdata`'s synthesis branch:
`v0 = ((axLetter + '0') in trace) ? ax.d2c(trace[axLetter + '0']) : 0`
(`d2c` of a linear axis is `cleanNumber`). -/
def calcV0 (tr : Trace) (letter : AxLetter) : Option ℚ :=
  match traceField0 tr letter with
  | some jv => cleanNumber jv
  | none => some 0

/-- The sequence step of `makeCalcdata`'s synthesis branch:
`dv = (trace['d' + axLetter]) ? Number(trace['d' + axLetter]) : 1`. -/
def calcDv (tr : Trace) (letter : AxLetter) : Option ℚ :=
  match traceFieldD tr letter with
  | some jv => if jsTruthy jv then jsNumber jv else some 1
  | none => some 1

/-- The length of `makeCalcdata`'s synthesis branch:
`len = trace._length || arrayIn.length` with `arrayIn` the companion
array (on whose absence the original would raise a `TypeError`; the
embedding reads it as empty, a case no modelled claim exercises). -/
def calcSeqLen (tr : Trace) (letter : AxLetter) : ℕ :=
  jsOrNat tr._length ((traceField tr (otherLetter letter)).getD []).length

/-- `ax.makeCalcdata` for a linear axis (`d2c = cleanNumber`): convert a
present data array element by element, or synthesize the arithmetic
sequence `v0 + i * dv` when the field is absent, with the length taken
from `trace._length` or else the companion array.  The typed-array fast
path (which passes a matching numeric buffer through unconverted) and the
per-element calendar of date axes are outside the embedded fragment. -/
def makeCalcdataLin (tr : Trace) (letter : AxLetter) : List (Option ℚ) :=
  match traceField tr letter with
  | some arrayIn =>
    let len := jsOrNat tr._length (minRowLengthFlat arrayIn)
    (List.range len).map (fun i => cleanNumber (arrayIn.getD i .null))
  | none =>
    (List.range (calcSeqLen tr letter)).map
      (fun i => jAdd (calcV0 tr letter) (jMul (some (i : ℚ)) (calcDv tr letter)))

/-! ## Helper lemmas -/

/-- The split increment of `cleanRange` is strictly positive. -/
lemma incOf_pos (r : ℚ) : 0 < incOf r :=
  lt_of_lt_of_le one_pos (le_max_left 1 _)

/-- At the endpoint value 5 the split increment is `max(1, 5e-6) = 1`. -/
lemma incOf_five : incOf 5 = 1 := by
  rw [incOf, abs_of_nonneg (by norm_num : (0 : ℚ) ≤ 5 * (1 / 1000000)),
    max_eq_left (by norm_num)]

/-- The multicategory sort comparator, unfolded to the rank-lexicographic
order it implements. -/
lemma pairLe_iff (acc : MCAcc) (a b : JVal × JVal) :
    pairLe acc a b = true ↔
      (rankOf acc.seen0 a.1 < rankOf acc.seen0 b.1 ∨
       (rankOf acc.seen0 a.1 = rankOf acc.seen0 b.1 ∧
        rankOf acc.seen1 a.2 ≤ rankOf acc.seen1 b.2)) := by
  simp [pairLe]

/-- Registering a list of pairs appends a sublist of that list (each pair
is appended on first sight and skipped when already present). -/
lemma foldInsMC_sublist (L : List (JVal × JVal)) (s : MCatState) :
    ∃ L', (L.foldl (fun st p => (setCategoryIndexMC st p).1) s).categories =
      s.categories ++ L' ∧ L'.Sublist L := by
  induction L generalizing s with
  | nil => exact ⟨[], by simp, List.Sublist.refl []⟩
  | cons p rest ih =>
    rcases h : jsLookup s.categoriesMap p with _ | i
    · obtain ⟨L', hL, hsub⟩ := ih
        { categories := s.categories ++ [p],
          categoriesMap := s.categoriesMap ++ [(p, s.categories.length)] }
      refine ⟨p :: L', ?_, List.Sublist.cons₂ p hsub⟩
      simp only [List.foldl_cons]
      rw [show (setCategoryIndexMC s p).1 =
          ({ categories := s.categories ++ [p],
             categoriesMap := s.categoriesMap ++ [(p, s.categories.length)] }
            : MCatState) from by simp [setCategoryIndexMC, h]]
      rw [hL]
      simp
    · obtain ⟨L', hL, hsub⟩ := ih s
      refine ⟨L', ?_, hsub.cons p⟩
      simp only [List.foldl_cons]
      rw [show (setCategoryIndexMC s p).1 = s from by
        simp [setCategoryIndexMC, h]]
      exact hL

/-- The equal-endpoint split step always yields distinct endpoints. -/
lemma splitStep_ne (c0 c2 : ℚ) :
    (if c0 = c2 then (c0 - incOf c0, c2 + incOf c0) else (c0, c2)).1 ≠
      (if c0 = c2 then (c0 - incOf c0, c2 + incOf c0) else (c0, c2)).2 := by
  split_ifs with h
  · show c0 - incOf c0 ≠ c2 + incOf c0
    intro hEq
    rw [← h] at hEq
    have := incOf_pos c0
    linarith
  · exact h

/-- `cleanRange` (numeric branch) always produces two distinct endpoints,
provided the default range has distinct endpoints. -/
lemma cleanRangeNumeric_ne (dflt : ℚ × ℚ) (hd : dflt.1 ≠ dflt.2)
    (range? : Option (List (Option ℚ))) :
    (cleanRangeNumeric dflt range?).1 ≠ (cleanRangeNumeric dflt range?).2 := by
  rcases range? with _ | rng
  · exact hd
  rcases rng with _ | ⟨e0, rng⟩
  · exact hd
  rcases rng with _ | ⟨e1, rng⟩
  · exact hd
  rcases rng with _ | ⟨e2, rng⟩
  · rcases e0 with _ | a <;> rcases e1 with _ | b
    · exact hd
    · exact splitStep_ne _ _
    · exact splitStep_ne _ _
    · exact splitStep_ne _ _
  · exact hd

/-- Both library default ranges have distinct endpoints. -/
lemma scaleDflt_ne (letter : AxLetter) :
    (scaleDflt letter).1 ≠ (scaleDflt letter).2 := by
  cases letter <;> norm_num [scaleDflt, DFLTRANGEY, DFLTRANGEX]

/-- Destructor for a successful x-axis `setScale`: the cleaned range has a
nonzero span and the scale fields carry the defining formulas. -/
lemma setScaleLin_ok_x (gs : PlotSize) (dom : ℚ × ℚ)
    (range? : Option (List (Option ℚ))) (sc : LinScale)
    (h : setScaleLin gs dom .x range? = .ok sc) :
    (cleanRangeNumeric DFLTRANGEX range?).2 -
        (cleanRangeNumeric DFLTRANGEX range?).1 ≠ 0 ∧
    sc.length = scaleLength gs dom .x ∧
    sc.m = scaleLength gs dom .x /
      ((cleanRangeNumeric DFLTRANGEX range?).2 -
       (cleanRangeNumeric DFLTRANGEX range?).1) ∧
    sc.b = -(sc.m * (cleanRangeNumeric DFLTRANGEX range?).1) ∧
    sc.offset = scaleOffset gs dom .x ∧ ¬ sc.length < 0 := by
  have hdx : scaleDflt AxLetter.x = DFLTRANGEX := rfl
  have hne := cleanRangeNumeric_ne (scaleDflt .x) (scaleDflt_ne .x) range?
  rw [hdx] at hne
  have hz : (cleanRangeNumeric DFLTRANGEX range?).2 -
      (cleanRangeNumeric DFLTRANGEX range?).1 ≠ 0 :=
    sub_ne_zero.mpr (Ne.symm hne)
  have hM : scaleM gs dom .x (cleanRangeNumeric DFLTRANGEX range?).1
      (cleanRangeNumeric DFLTRANGEX range?).2 =
      some (scaleLength gs dom .x /
        ((cleanRangeNumeric DFLTRANGEX range?).2 -
         (cleanRangeNumeric DFLTRANGEX range?).1)) := by
    simp [scaleM, jDiv, hz]
  rw [setScaleLin] at h
  rw [hdx] at h
  rw [hM] at h
  simp only [scaleB] at h
  split_ifs at h with hlen
  exact ⟨hz, by injection h with h'; rw [← h'],
    by injection h with h'; rw [← h'],
    by injection h with h'; rw [← h'],
    by injection h with h'; rw [← h'],
    by injection h with h'; rw [← h']; exact hlen⟩

/-- For a linear axis, `setScale` fails exactly when the derived pixel
length is negative: the cleaned range always has a nonzero span, so the
slope and intercept are always finite. -/
lemma setScaleLin_error_iff (gs : PlotSize) (dom : ℚ × ℚ) (letter : AxLetter)
    (range? : Option (List (Option ℚ))) :
    (∃ e, setScaleLin gs dom letter range? = .error e) ↔
      scaleLength gs dom letter < 0 := by
  have hne := cleanRangeNumeric_ne (scaleDflt letter) (scaleDflt_ne letter)
    range?
  cases letter with
  | x =>
    have hz : (cleanRangeNumeric (scaleDflt .x) range?).2 -
        (cleanRangeNumeric (scaleDflt .x) range?).1 ≠ 0 :=
      sub_ne_zero.mpr (Ne.symm hne)
    simp only [setScaleLin, scaleM, jDiv, if_neg hz, scaleB]
    split_ifs with hlen
    · simp [hlen]
    · simp [hlen]
  | y =>
    have hz : (cleanRangeNumeric (scaleDflt .y) range?).1 -
        (cleanRangeNumeric (scaleDflt .y) range?).2 ≠ 0 :=
      sub_ne_zero.mpr hne
    simp only [setScaleLin, scaleM, jDiv, if_neg hz, scaleB]
    split_ifs with hlen
    · simp [hlen]
    · simp [hlen]

/-- After `cleanRange`, the slope and intercept of a linear axis are
always finite. -/
lemma scaleMB_isSome (gs : PlotSize) (dom : ℚ × ℚ) (letter : AxLetter)
    (range? : Option (List (Option ℚ))) :
    scaleM gs dom letter (cleanRangeNumeric (scaleDflt letter) range?).1
        (cleanRangeNumeric (scaleDflt letter) range?).2 ≠ none ∧
    scaleB letter
        (scaleM gs dom letter (cleanRangeNumeric (scaleDflt letter) range?).1
          (cleanRangeNumeric (scaleDflt letter) range?).2)
        (cleanRangeNumeric (scaleDflt letter) range?).1
        (cleanRangeNumeric (scaleDflt letter) range?).2 ≠ none := by
  have hne := cleanRangeNumeric_ne (scaleDflt letter) (scaleDflt_ne letter)
    range?
  cases letter with
  | x =>
    have hz : (cleanRangeNumeric (scaleDflt .x) range?).2 -
        (cleanRangeNumeric (scaleDflt .x) range?).1 ≠ 0 :=
      sub_ne_zero.mpr (Ne.symm hne)
    constructor <;> simp [scaleM, jDiv, hz, scaleB]
  | y =>
    have hz : (cleanRangeNumeric (scaleDflt .y) range?).1 -
        (cleanRangeNumeric (scaleDflt .y) range?).2 ≠ 0 :=
      sub_ne_zero.mpr hne
    constructor <;> simp [scaleM, jDiv, hz, scaleB]

/-! ## Claims -/

/-- Claim C1, amended: `d2p v = l2p (d2l v)` holds for every value on
linear, log and date axes, and on category and multicategory axes for
every value already registered in the category map (the registry then
being left unchanged; the multicategory scalar `d2l` is replaced by the
bulk conversion, compared element by element).  For an unregistered valid
label the identity fails: `d2l` inserts the label at a fresh index while
`d2p` falls back to the pixel of the range midpoint (see the
counterexample). -/
theorem c1_d2p_composes :
    (∀ b m v, lin_d2p b m v = l2p b m (lin_d2l v)) ∧
    (∀ rng b m v clip, log_d2p rng b m v clip = l2p b m (log_d2l rng v clip)) ∧
    (∀ b m v, date_d2p b m v = l2p b m (date_d2l v)) ∧
    (∀ s rng b m v i, isValidCategory v = true →
      getCategoryIndex s v = some i →
      cat_d2p s rng b m v = l2p b m (cat_d2l s v).2 ∧ (cat_d2l s v).1 = s) ∧
    (∀ s rng b m row0 row1 len j i, j < len →
      (setMultiCategoryIndex s row0 row1 len).getD j none = some i →
      mc_d2pPair s rng b m (row0.getD j .null, row1.getD j .null) =
        l2p b m (some (i : ℚ))) := by
  refine ⟨fun b m v => rfl, fun rng b m v clip => rfl, fun b m v => rfl,
    ?_, ?_⟩
  · intro s rng b m v i hval hidx
    have hl : jsLookup s.categoriesMap v = some i := hidx
    have h1 : setCategoryIndex s v = (s, some i) := by
      simp [setCategoryIndex, hval, hl]
    constructor
    · simp [cat_d2p, cat_r2c, getCategoryPosition, hidx, cat_d2l, h1]
    · simp [cat_d2l, h1]
  · intro s rng b m row0 row1 len j i hj hget
    have hrw : (setMultiCategoryIndex s row0 row1 len).getD j none =
        getCategoryIndexMC s (row0.getD j .null, row1.getD j .null) := by
      simp [setMultiCategoryIndex, List.getD_eq_getElem?_getD,
        List.getElem?_map, List.getElem?_range hj]
    rw [hrw] at hget
    simp only [List.getD_eq_getElem?_getD] at hget
    simp [mc_d2pPair, mc_r2cPair, List.getD_eq_getElem?_getD, hget]

/-- Claim C1, witness: the composition identity applied to a registered
category label and a registered multicategory pair. -/
theorem c1_d2p_composes_witness :
    (isValidCategory (.str "a") = true ∧
      getCategoryIndex (⟨[.str "a"], [(.str "a", 0)]⟩ : CatState) (.str "a") =
        some 0 ∧
      cat_d2p ⟨[.str "a"], [(.str "a", 0)]⟩ (.num 0, .num 1) 0 1 (.str "a") =
        l2p 0 1 (cat_d2l ⟨[.str "a"], [(.str "a", 0)]⟩ (.str "a")).2) ∧
    ((0 : ℕ) < 1 ∧
      (setMultiCategoryIndex ⟨[(.str "x", .str "1")], [((.str "x", .str "1"), 0)]⟩
          [.str "x"] [.str "1"] 1).getD 0 none = some 0 ∧
      mc_d2pPair ⟨[(.str "x", .str "1")], [((.str "x", .str "1"), 0)]⟩
          (.num 0, .num 1) 0 1
          (([.str "x"] : List JVal).getD 0 .null,
           ([.str "1"] : List JVal).getD 0 .null) =
        l2p 0 1 (some ((0 : ℕ) : ℚ))) :=
  ⟨⟨by decide, by decide,
    (c1_d2p_composes.2.2.2.1 ⟨[.str "a"], [(.str "a", 0)]⟩ (.num 0, .num 1)
      0 1 (.str "a") 0 (by decide) (by decide)).1⟩,
   ⟨by decide, by decide,
    c1_d2p_composes.2.2.2.2 ⟨[(.str "x", .str "1")], [((.str "x", .str "1"), 0)]⟩
      (.num 0, .num 1) 0 1 [.str "x"] [.str "1"] 1 0 0 (by decide) (by decide)⟩⟩

/-- Claim C1, counterexample to the literal statement: on a category axis
whose registry holds only `"a"`, with range `(0, 1)` and scale `b = 0`,
`m = 100`, the unregistered label `"b"` has `d2p "b" = 50` (the pixel of
the range midpoint) while `l2p (d2l "b") = 100` (the pixel of the freshly
inserted index 1) — and `d2l` mutates the registry while `d2p` does not. -/
theorem c1_category_counterexample :
    cat_d2p ⟨[.str "a"], [(.str "a", 0)]⟩ (.num 0, .num 1) 0 100 (.str "b") =
      some 50 ∧
    l2p 0 100 (cat_d2l ⟨[.str "a"], [(.str "a", 0)]⟩ (.str "b")).2 =
      some 100 ∧
    cat_d2p ⟨[.str "a"], [(.str "a", 0)]⟩ (.num 0, .num 1) 0 100 (.str "b") ≠
      l2p 0 100 (cat_d2l ⟨[.str "a"], [(.str "a", 0)]⟩ (.str "b")).2 ∧
    (cat_d2l ⟨[.str "a"], [(.str "a", 0)]⟩ (.str "b")).1 ≠
      (⟨[.str "a"], [(.str "a", 0)]⟩ : CatState) := by
  have h1 : cat_d2p ⟨[.str "a"], [(.str "a", 0)]⟩ (.num 0, .num 1) 0 100
      (.str "b") = some 50 := by
    simp [cat_d2p, cat_r2c, getCategoryPosition, getCategoryIndex,
      fraction2rCat, jsLookup, jAdd, jMul, jSub, l2p, l2pVal, d3Round2,
      round_eq]
    norm_num
  have h2 : l2p 0 100 (cat_d2l ⟨[.str "a"], [(.str "a", 0)]⟩ (.str "b")).2 =
      some 100 := by
    simp [cat_d2l, setCategoryIndex, isValidCategory, jsLookup, l2p, l2pVal,
      d3Round2, round_eq]
    norm_num
  refine ⟨h1, h2, ?_, by decide⟩
  rw [h1, h2]
  intro h
  have := Option.some.inj h
  norm_num at this

/-- Claim C2, amended: the concrete instance holds exactly — a horizontal
axis with domain `[0,1]`, viewport width 800 at left offset 0 and linear
range `[0,10]` gets `m = 80`, `b = 0`, `l2p 10 = 800`.  In general, for
any successful x-axis `setScale`, `l2p` at the lower range endpoint is
exactly `0`, while at the upper endpoint it is the pixel length rounded
to two decimal digits — equal to the length exactly when `100·length` is
an integer (the concrete instance satisfies this; the counterexample
shows a length where the rounding moves the value). -/
theorem c2_setScale_concrete_and_edges :
    (setScaleLin ⟨0, 0, 800, 0⟩ (0, 1) .x (some [some 0, some 10]) =
        Except.ok ⟨0, 800, 80, 0⟩ ∧
      l2p (0 : ℚ) 80 (some 10) = some 800) ∧
    (∀ gs dom range? sc, setScaleLin gs dom .x range? = .ok sc →
      l2pVal sc.b sc.m (cleanRangeNumeric DFLTRANGEX range?).1 = 0 ∧
      l2pVal sc.b sc.m (cleanRangeNumeric DFLTRANGEX range?).2 =
        d3Round2 sc.length ∧
      (∀ n : ℤ, sc.length * 100 = (n : ℚ) →
        l2pVal sc.b sc.m (cleanRangeNumeric DFLTRANGEX range?).2 =
          sc.length)) := by
  constructor
  · constructor
    · norm_num [setScaleLin, cleanRangeNumeric, clampFP, incOf, FP_SAFE,
        scaleM, scaleB, scaleLength, scaleOffset, scaleDflt, DFLTRANGEX, jDiv]
    · norm_num [l2p, l2pVal, d3Round2, round_eq]
  · intro gs dom range? sc h
    obtain ⟨hz, hlen, hm, hb, hoff, hpos⟩ := setScaleLin_ok_x gs dom range? sc h
    have key0 : sc.b + sc.m * (cleanRangeNumeric DFLTRANGEX range?).1 = 0 := by
      rw [hb]; ring
    have key1 : sc.b + sc.m * (cleanRangeNumeric DFLTRANGEX range?).2 =
        sc.length := by
      rw [hb, hm, hlen]
      field_simp
      ring
    refine ⟨?_, ?_, ?_⟩
    · rw [l2pVal, key0]
      simp [d3Round2]
    · rw [l2pVal, key1]
    · intro n hn
      rw [l2pVal, key1, d3Round2, hn, round_intCast]
      have hL : sc.length = (n : ℚ) / 100 := by
        rw [← hn]
        exact (mul_div_cancel_right₀ sc.length (by norm_num)).symm
      rw [hL]

/-- Claim C2, witness: the pixel-edge facts instantiated at the concrete
800-pixel axis. -/
theorem c2_setScale_concrete_and_edges_witness :
    setScaleLin ⟨0, 0, 800, 0⟩ (0, 1) .x (some [some 0, some 10]) =
      Except.ok ⟨0, 800, 80, 0⟩ ∧
    (l2pVal (LinScale.mk 0 800 80 0).b (LinScale.mk 0 800 80 0).m
        (cleanRangeNumeric DFLTRANGEX (some [some 0, some 10])).1 = 0 ∧
     l2pVal (LinScale.mk 0 800 80 0).b (LinScale.mk 0 800 80 0).m
        (cleanRangeNumeric DFLTRANGEX (some [some 0, some 10])).2 =
       d3Round2 (LinScale.mk 0 800 80 0).length ∧
     (∀ n : ℤ, (LinScale.mk 0 800 80 0).length * 100 = (n : ℚ) →
       l2pVal (LinScale.mk 0 800 80 0).b (LinScale.mk 0 800 80 0).m
          (cleanRangeNumeric DFLTRANGEX (some [some 0, some 10])).2 =
         (LinScale.mk 0 800 80 0).length)) := by
  have hok : setScaleLin ⟨0, 0, 800, 0⟩ (0, 1) .x (some [some 0, some 10]) =
      Except.ok ⟨0, 800, 80, 0⟩ := c2_setScale_concrete_and_edges.1.1
  exact ⟨hok, c2_setScale_concrete_and_edges.2 _ _ _ _ hok⟩

/-- Claim C2, counterexample to the literal "lands exactly on the pixel
edge" clause: with viewport width 100 and domain `(0, 1/3)` the pixel
length is `100/3`, and `l2p` at the upper range endpoint is the rounded
`33.33`, not `100/3`. -/
theorem c2_endpoint_pixel_counterexample :
    setScaleLin ⟨0, 0, 100, 0⟩ (0, 1 / 3) .x (some [some 0, some 10]) =
      Except.ok ⟨0, 100 / 3, 10 / 3, 0⟩ ∧
    l2pVal (0 : ℚ) (10 / 3) 10 = 3333 / 100 ∧
    ((3333 : ℚ) / 100) ≠ 100 / 3 := by
  refine ⟨?_, ?_, by norm_num⟩
  · norm_num [setScaleLin, cleanRangeNumeric, clampFP, incOf, FP_SAFE,
      scaleM, scaleB, scaleLength, scaleOffset, scaleDflt, DFLTRANGEX, jDiv]
  · norm_num [l2pVal, d3Round2, round_eq]

/-- Claim C3: no embedded conversion throws — each is a total function
returning the `BADNUM` sentinel on unparseable input (linear, log and
date conversions propagate a failed parse; an invalid category label is
rejected without insertion) — and the linear-axis `setScale` is the one
operation that signals an error, exactly when the derived slope or
intercept is non-finite or the derived pixel length is negative (after
`cleanRange`, slope and intercept are in fact always finite, so the error
fires exactly on a negative length). -/
theorem c3_badnum_and_setScale_error :
    (∀ b m v, cleanNumber v = none →
      lin_d2l v = none ∧ lin_d2p b m v = none) ∧
    (∀ (rng : Option (ℝ × ℝ)) (b m : ℝ) v clip, cleanNumber v = none →
      log_d2l rng v clip = none ∧ log_d2p rng b m v clip = none) ∧
    (∀ b m v, dt2ms v = none → date_d2l v = none ∧ date_d2p b m v = none) ∧
    (∀ s v, isValidCategory v = false → setCategoryIndex s v = (s, none)) ∧
    (∀ gs dom letter range?,
      (∃ e, setScaleLin gs dom letter range? = .error e) ↔
        (scaleM gs dom letter
            (cleanRangeNumeric (scaleDflt letter) range?).1
            (cleanRangeNumeric (scaleDflt letter) range?).2 = none ∨
         scaleB letter
            (scaleM gs dom letter
              (cleanRangeNumeric (scaleDflt letter) range?).1
              (cleanRangeNumeric (scaleDflt letter) range?).2)
            (cleanRangeNumeric (scaleDflt letter) range?).1
            (cleanRangeNumeric (scaleDflt letter) range?).2 = none ∨
         scaleLength gs dom letter < 0)) ∧
    (∀ gs dom letter range?,
      (∃ e, setScaleLin gs dom letter range? = .error e) ↔
        scaleLength gs dom letter < 0) := by
  refine ⟨?_, ?_, ?_, ?_, ?_, setScaleLin_error_iff⟩
  · intro b m v h
    exact ⟨h, by simp [lin_d2p, h, l2p]⟩
  · intro rng b m v clip h
    have h1 : log_d2l rng v clip = none := by simp [log_d2l, h]
    exact ⟨h1, by simp [log_d2p, h1, l2p]⟩
  · intro b m v h
    exact ⟨h, by simp [date_d2p, h, l2p]⟩
  · intro s v h
    simp [setCategoryIndex, h]
  · intro gs dom letter range?
    rw [setScaleLin_error_iff]
    obtain ⟨hM, hB⟩ := scaleMB_isSome gs dom letter range?
    constructor
    · intro h
      exact Or.inr (Or.inr h)
    · intro h
      rcases h with h | h | h
      · exact absurd h hM
      · exact absurd h hB
      · exact h

/-- Claim C3, witness: `BADNUM` propagation at `null` and an unparseable
date string, and the error iff at a reversed domain giving a negative
pixel length. -/
theorem c3_badnum_and_setScale_error_witness :
    (cleanNumber JVal.null = none ∧
      lin_d2l .null = none ∧ lin_d2p 0 1 .null = none) ∧
    (dt2ms (.str "not a date") = none ∧
      date_d2p 0 1 (.str "not a date") = none) ∧
    ((∃ e, setScaleLin ⟨0, 0, 100, 0⟩ (1, 0) .x (some [some 0, some 10]) =
        .error e) ↔
      scaleLength ⟨0, 0, 100, 0⟩ (1, 0) .x < 0) ∧
    scaleLength ⟨0, 0, 100, 0⟩ (1, 0) AxLetter.x < 0 :=
  ⟨⟨rfl, (c3_badnum_and_setScale_error.1 0 1 .null rfl).1,
    (c3_badnum_and_setScale_error.1 0 1 .null rfl).2⟩,
   ⟨rfl, (c3_badnum_and_setScale_error.2.2.1 0 1 (.str "not a date") rfl).2⟩,
   c3_badnum_and_setScale_error.2.2.2.2.2 ⟨0, 0, 100, 0⟩ (1, 0) .x
     (some [some 0, some 10]),
   by norm_num [scaleLength]⟩

/-- Claim C4: `toLog` returns `log10 v` for every `v > 0`; for `v ≤ 0`
with clipping and a 2-element range it returns the finite position
`min(r0,r1) - (LOG_CLIP - 1/2)·|r0 - r1|`, strictly beyond the range edge
nearer to zero whenever the range is nondegenerate; in particular
`toLog 0 true` with range `[1,100]` is `-939.5 < log10 1`; without
clipping or without a range it returns `BADNUM`. -/
theorem c4_toLog_spec :
    (∀ (rng : Option (ℝ × ℝ)) (v : ℝ) (clip : Bool), 0 < v →
      toLog rng v clip = some (Real.log v / Real.log 10)) ∧
    (∀ (r0 r1 v : ℝ), v ≤ 0 →
      toLog (some (r0, r1)) v true =
        some (min r0 r1 - (LOG_CLIP - 1 / 2) * |r0 - r1|) ∧
      (r0 ≠ r1 → min r0 r1 - (LOG_CLIP - 1 / 2) * |r0 - r1| < min r0 r1)) ∧
    (toLog (some (1, 100)) 0 true = some (-(1879 / 2)) ∧
      (-(1879 / 2) : ℝ) < Real.log 1 / Real.log 10) ∧
    (∀ (rng : Option (ℝ × ℝ)) (v : ℝ), v ≤ 0 → toLog rng v false = none) ∧
    (∀ (v : ℝ) (clip : Bool), v ≤ 0 → toLog none v clip = none) := by
  refine ⟨?_, ?_, ⟨?_, ?_⟩, ?_, ?_⟩
  · intro rng v clip hv
    simp [toLog, hv]
  · intro r0 r1 v hv
    constructor
    · rw [toLog, if_neg (by linarith), if_pos rfl]
      congr 1
      have h2 : max r0 r1 - min r0 r1 = |r0 - r1| := by
        rw [abs_sub_comm]
        exact max_sub_min_eq_abs r0 r1
      rw [← h2]
      linear_combination (-(1 / 2) : ℝ) * (min_add_max r0 r1)
    · intro hne
      have habs : 0 < |r0 - r1| := abs_pos.mpr (sub_ne_zero_of_ne hne)
      have : 0 < (LOG_CLIP - 1 / 2) * |r0 - r1| :=
        mul_pos (by norm_num [LOG_CLIP]) habs
      linarith
  · norm_num [toLog, LOG_CLIP, abs_of_nonpos]
  · rw [Real.log_one]
    norm_num
  · intro rng v hv
    cases rng with
    | none => simp [toLog, not_lt.mpr hv]
    | some p => simp [toLog, not_lt.mpr hv]
  · intro v clip hv
    cases clip <;> simp [toLog, not_lt.mpr hv]

/-- Claim C4, witness: the positive branch at `v = 1` and the clipping
branch at `v = 0` with range `(1, 100)`. -/
theorem c4_toLog_spec_witness :
    ((0 : ℝ) < 1 ∧ toLog none 1 false = some (Real.log 1 / Real.log 10)) ∧
    ((0 : ℝ) ≤ 0 ∧
      toLog (some ((1 : ℝ), 100)) 0 true =
        some (min (1 : ℝ) 100 - (LOG_CLIP - 1 / 2) * |(1 : ℝ) - 100|)) :=
  ⟨⟨by norm_num, c4_toLog_spec.1 none 1 false (by norm_num)⟩,
   ⟨le_refl 0, (c4_toLog_spec.2.1 1 100 0 (le_refl 0)).1⟩⟩

/-- Claim C5: `setCategoryIndex` returns the existing index of an
already-registered label, otherwise appends the label at the next integer
index (preserving first-seen order), and rejects invalid labels with
`BADNUM` without inserting them; inserting `["b","a","b","c"]` in order
yields indices `b:0, a:1, c:2`, and a second insert of `"a"` returns `1`
without changing the registry. -/
theorem c5_setCategoryIndex_spec :
    (∀ s v i, isValidCategory v = true → jsLookup s.categoriesMap v = some i →
      setCategoryIndex s v = (s, some i)) ∧
    (∀ s v, isValidCategory v = true → jsLookup s.categoriesMap v = none →
      setCategoryIndex s v =
        ({ categories := s.categories ++ [v],
           categoriesMap := s.categoriesMap ++ [(v, s.categories.length)] },
         some s.categories.length)) ∧
    (∀ s v, isValidCategory v = false → setCategoryIndex s v = (s, none)) ∧
    (insertSeq emptyCat [.str "b", .str "a", .str "b", .str "c"] =
      (⟨[.str "b", .str "a", .str "c"],
        [(.str "b", 0), (.str "a", 1), (.str "c", 2)]⟩,
       [some 0, some 1, some 0, some 2])) ∧
    (setCategoryIndex
        ⟨[.str "b", .str "a", .str "c"],
         [(.str "b", 0), (.str "a", 1), (.str "c", 2)]⟩ (.str "a") =
      (⟨[.str "b", .str "a", .str "c"],
        [(.str "b", 0), (.str "a", 1), (.str "c", 2)]⟩, some 1)) := by
  refine ⟨?_, ?_, ?_, by decide, by decide⟩
  · intro s v i hval hl
    simp [setCategoryIndex, hval, hl]
  · intro s v hval hl
    simp [setCategoryIndex, hval, hl]
  · intro s v hval
    simp [setCategoryIndex, hval]

/-- Claim C5, witness: lookup of a registered label and rejection of an
invalid one. -/
theorem c5_setCategoryIndex_spec_witness :
    (isValidCategory (.str "a") = true ∧
      jsLookup (⟨[.str "a"], [(.str "a", 0)]⟩ : CatState).categoriesMap
        (.str "a") = some 0 ∧
      setCategoryIndex ⟨[.str "a"], [(.str "a", 0)]⟩ (.str "a") =
        (⟨[.str "a"], [(.str "a", 0)]⟩, some 0)) ∧
    (isValidCategory JVal.null = false ∧
      setCategoryIndex emptyCat .null = (emptyCat, none)) :=
  ⟨⟨by decide, by decide,
    c5_setCategoryIndex_spec.1 ⟨[.str "a"], [(.str "a", 0)]⟩ (.str "a") 0
      (by decide) (by decide)⟩,
   ⟨by decide, c5_setCategoryIndex_spec.2.2.1 emptyCat .null (by decide)⟩⟩

/-- Claim C6: `setupMultiCategory` registers the observed valid pairs in
the order given by sorting them by (appearance-order rank of first key,
appearance-order rank of second key): starting from an empty registry,
the registered list is a sublist of the rank-sorted pair list and is
itself sorted in that order; the input rows
`[["x","x","y"],["1","2","1"]]` register
`[("x","1"), ("x","2"), ("y","1")]`, so every `"x"`-keyed pair precedes
every `"y"`-keyed pair and, within `"x"`, `"1"` precedes `"2"`. -/
theorem c6_setupMultiCategory_sorted :
    (∀ ts, ((setupMultiCategory emptyMCat ts).categories).Sublist
      (mcSortedList ts)) ∧
    (∀ ts, ((setupMultiCategory emptyMCat ts).categories).Pairwise
      (fun a b => pairLe (mcGather ts) a b = true)) ∧
    ((setupMultiCategory emptyMCat
        [⟨some ([.str "x", .str "x", .str "y"],
               [.str "1", .str "2", .str "1"]), none⟩]).categories =
      [(.str "x", .str "1"), (.str "x", .str "2"), (.str "y", .str "1")]) := by
  have hsub : ∀ ts, ((setupMultiCategory emptyMCat ts).categories).Sublist
      (mcSortedList ts) := by
    intro ts
    obtain ⟨L', hL, hs⟩ := foldInsMC_sublist (mcSortedList ts) emptyMCat
    rw [setupMultiCategory, hL]
    simpa [emptyMCat] using hs
  refine ⟨hsub, ?_, by decide⟩
  intro ts
  have hsorted : (mcSortedList ts).Pairwise
      (fun a b => pairLe (mcGather ts) a b = true) := by
    rw [mcSortedList]
    letI : IsTotal (JVal × JVal)
        (fun a b => pairLe (mcGather ts) a b = true) :=
      ⟨by intro a b; rw [pairLe_iff, pairLe_iff]; omega⟩
    letI : IsTrans (JVal × JVal)
        (fun a b => pairLe (mcGather ts) a b = true) :=
      ⟨by intro a b c; rw [pairLe_iff, pairLe_iff, pairLe_iff]; omega⟩
    exact List.sorted_insertionSort _ _
  exact List.Pairwise.sublist (hsub ts) hsorted

/-- Claim C7: on a numeric range whose two entries are strictly equal,
`cleanRange` splits them symmetrically by
`incOf v = max(1, |v·1e-6|)`, producing two distinct endpoints; on
`[5, 5]` the increment is `1` and the result is `[4, 6]`. -/
theorem c7_cleanRange_equal_split :
    (∀ (dflt : ℚ × ℚ) (v : ℚ), -FP_SAFE ≤ v → v + incOf v ≤ FP_SAFE →
      cleanRangeNumeric dflt (some [some v, some v]) =
        (v - incOf v, v + incOf v) ∧
      v - incOf v ≠ v + incOf v) ∧
    (incOf 5 = 1 ∧
      cleanRangeNumeric DFLTRANGEX (some [some 5, some 5]) = (4, 6)) := by
  constructor
  · intro dflt v h1 h2
    have hpos : 0 < incOf v := incOf_pos v
    have hclamp : clampFP v = v := by
      rw [clampFP, if_neg (by linarith), if_neg (by linarith)]
    have hclamp2 : clampFP (v + incOf v) = v + incOf v := by
      rw [clampFP, if_neg (by linarith), if_neg (by linarith)]
    have hne : ¬(v - incOf v = v + incOf v) := by intro h; linarith
    constructor
    · simp [cleanRangeNumeric, hclamp, hclamp2, hne]
    · intro hEq; linarith
  · exact ⟨incOf_five, by
      norm_num [cleanRangeNumeric, clampFP, incOf, FP_SAFE, abs_of_nonneg]⟩

/-- Claim C7, witness: the split applied at `v = 5` (where the increment
is 1). -/
theorem c7_cleanRange_equal_split_witness :
    (-FP_SAFE ≤ (5 : ℚ) ∧ (5 : ℚ) + incOf 5 ≤ FP_SAFE) ∧
    (cleanRangeNumeric DFLTRANGEX (some [some 5, some 5]) =
        (5 - incOf 5, 5 + incOf 5) ∧
      (5 : ℚ) - incOf 5 ≠ 5 + incOf 5) :=
  ⟨⟨by rw [FP_SAFE]; norm_num, by rw [incOf_five, FP_SAFE]; norm_num⟩,
   c7_cleanRange_equal_split.1 DFLTRANGEX 5 (by rw [FP_SAFE]; norm_num)
     (by rw [incOf_five, FP_SAFE]; norm_num)⟩

/-- Claim C8: when the trace field for the axis letter is absent,
`makeCalcdata` returns the arithmetic sequence `v0 + i·dv` for
`i = 0..len-1`, where `v0` is the converted `axis0` attribute (default 0),
`dv` the `d`+axis attribute (default 1), and `len` the trace's declared
`_length` or else the companion array's length; a trace with `x0 = 5`,
`dx = 2` and a 4-element companion `y` array produces `[5, 7, 9, 11]`. -/
theorem c8_makeCalcdata_arith_seq :
    (∀ tr letter q d, traceField tr letter = none →
      calcV0 tr letter = some q → calcDv tr letter = some d →
      makeCalcdataLin tr letter =
        (List.range (calcSeqLen tr letter)).map
          (fun i => some (q + (i : ℚ) * d))) ∧
    (∀ tr letter, traceField0 tr letter = none → calcV0 tr letter = some 0) ∧
    (∀ tr letter, traceFieldD tr letter = none → calcDv tr letter = some 1) ∧
    (∀ tr letter n, tr._length = some n → n ≠ 0 → calcSeqLen tr letter = n) ∧
    (∀ tr letter, tr._length = none →
      calcSeqLen tr letter =
        ((traceField tr (otherLetter letter)).getD []).length) ∧
    (makeCalcdataLin
        ⟨none, some [.num 0, .num 0, .num 0, .num 0], some (.num 5), none,
         some (.num 2), none, none⟩ .x =
      [some 5, some 7, some 9, some 11]) := by
  refine ⟨?_, ?_, ?_, ?_, ?_, ?_⟩
  · intro tr letter q d hf hv0 hd
    simp only [makeCalcdataLin, hf, hv0, hd]
    simp [jAdd, jMul]
  · intro tr letter h
    simp [calcV0, h]
  · intro tr letter h
    simp [calcDv, h]
  · intro tr letter n h hn
    simp [calcSeqLen, h, jsOrNat, hn]
  · intro tr letter h
    simp [calcSeqLen, h, jsOrNat]
  · norm_num [makeCalcdataLin, calcV0, calcDv, calcSeqLen, traceField,
      traceField0, traceFieldD, otherLetter, jsTruthy, jsNumber, cleanNumber,
      jsOrNat, jAdd, jMul, List.range_succ]

/-- Claim C8, witness: the synthesis branch applied to the concrete
`x0 = 5`, `dx = 2` trace with a 4-element companion array. -/
theorem c8_makeCalcdata_arith_seq_witness :
    (traceField
        ⟨none, some [.num 0, .num 0, .num 0, .num 0], some (.num 5), none,
         some (.num 2), none, none⟩ .x = none ∧
      calcV0
        ⟨none, some [.num 0, .num 0, .num 0, .num 0], some (.num 5), none,
         some (.num 2), none, none⟩ .x = some 5 ∧
      calcDv
        ⟨none, some [.num 0, .num 0, .num 0, .num 0], some (.num 5), none,
         some (.num 2), none, none⟩ .x = some 2) ∧
    makeCalcdataLin
        ⟨none, some [.num 0, .num 0, .num 0, .num 0], some (.num 5), none,
         some (.num 2), none, none⟩ .x =
      (List.range (calcSeqLen
        ⟨none, some [.num 0, .num 0, .num 0, .num 0], some (.num 5), none,
         some (.num 2), none, none⟩ .x)).map
        (fun i => some ((5 : ℚ) + (i : ℚ) * 2)) :=
  ⟨⟨rfl, rfl, by simp [calcDv, traceFieldD, jsTruthy, jsNumber]⟩,
   c8_makeCalcdata_arith_seq.1 _ _ 5 2 rfl rfl
     (by simp [calcDv, traceFieldD, jsTruthy, jsNumber])⟩

/-- Claim C9, amended: the pixel round trip `p2l (l2p x)` differs from `x`
by at most the two-decimal pixel quantization of `l2p`, i.e.
`|p2l (l2p x) - x| ≤ 1/(200·|m|)` for any scale with `m ≠ 0` — not merely
by floating-point rounding: the embedding computes exactly, and the
counterexample exhibits a deviation of `1/5` caused purely by
`d3.round(·, 2)`. -/
theorem c9_roundtrip_quantization_bound {α : Type} [LinearOrderedField α]
    [FloorRing α] (b m x : α) (hm : m ≠ 0) :
    |p2l b m (l2pVal b m x) - x| ≤ 1 / (200 * |m|) := by
  have hm' : 0 < |m| := abs_pos.mpr hm
  have key : p2l b m (l2pVal b m x) - x =
      (d3Round2 (b + m * x) - (b + m * x)) / m := by
    rw [p2l, l2pVal]
    field_simp
    ring
  have h1 : |d3Round2 (b + m * x) - (b + m * x)| ≤ 1 / 200 := by
    have h := abs_sub_round ((b + m * x) * 100)
    rw [d3Round2]
    have h2 : ((round ((b + m * x) * 100) : ℤ) : α) / 100 - (b + m * x) =
        (((round ((b + m * x) * 100) : ℤ) : α) - (b + m * x) * 100) / 100 := by
      ring
    rw [h2, abs_div, abs_sub_comm, abs_of_pos (by norm_num : (0 : α) < 100)]
    calc |(b + m * x) * 100 - ((round ((b + m * x) * 100) : ℤ) : α)| / 100
        ≤ (1 / 2) / 100 := by
          apply div_le_div_of_nonneg_right h (by norm_num)
      _ = 1 / 200 := by norm_num
  rw [key, abs_div]
  calc |d3Round2 (b + m * x) - (b + m * x)| / |m|
      ≤ (1 / 200) / |m| := by
        exact (div_le_div_iff_of_pos_right hm').mpr h1
    _ = 1 / (200 * |m|) := div_div 1 200 |m|

/-- Claim C9, witness: the quantization bound at `b = 0`, `m = 1`,
`x = 0`. -/
theorem c9_roundtrip_quantization_bound_witness :
    (1 : ℚ) ≠ 0 ∧ |p2l (0 : ℚ) 1 (l2pVal 0 1 0) - 0| ≤ 1 / (200 * |(1 : ℚ)|) :=
  ⟨one_ne_zero, c9_roundtrip_quantization_bound 0 1 0 one_ne_zero⟩

/-- Claim C9, counterexample to the literal "equals x up to floating-point
rounding": with `b = 0`, `m = 1/100`, the linearized value `1/5` maps to
pixel `0` (rounded from `0.002`), whose round trip is `0`, off by `1/5`
in exact arithmetic. -/
theorem c9_roundtrip_counterexample :
    l2pVal (0 : ℚ) (1 / 100) (1 / 5) = 0 ∧
    p2l (0 : ℚ) (1 / 100) (l2pVal 0 (1 / 100) (1 / 5)) = 0 ∧
    |p2l (0 : ℚ) (1 / 100) (l2pVal 0 (1 / 100) (1 / 5)) - 1 / 5| = 1 / 5 ∧
    p2l (0 : ℚ) (1 / 100) (l2pVal 0 (1 / 100) (1 / 5)) ≠ 1 / 5 := by
  have h : l2pVal (0 : ℚ) (1 / 100) (1 / 5) = 0 := by
    norm_num [l2pVal, d3Round2, round_eq]
  have h2 : p2l (0 : ℚ) (1 / 100) 0 = 0 := by norm_num [p2l]
  refine ⟨h, by rw [h, h2], ?_, by rw [h, h2]; norm_num⟩
  rw [h, h2]
  rw [show (0 : ℚ) - 1 / 5 = -(1 / 5) by norm_num, abs_neg,
    abs_of_nonneg (by norm_num : (0 : ℚ) ≤ 1 / 5)]

/-- Claim C10: on category and multicategory axes the positional
conversions are pure registry reads — a registered value resolves to its
index; an unregistered numeric value passes through as its own linearized
position; an unregistered non-numeric value falls back, under `r2c`
(hence `d2p`/`r2p`), to `fraction2r 0.5` (the range midpoint) and, under
`r2l`/`d2r` (`getCategoryPosition`), to `BADNUM`; only
`setCategoryIndex` — the category `d2c`/`d2l` and the bulk multicategory
setup path — can grow the registry, and only on a valid unregistered
label. -/
theorem c10_positional_conversions_read_only :
    (∀ s rng v i, getCategoryIndex s v = some i →
      getCategoryPosition s v = some (i : ℚ) ∧ cat_r2c s rng v = some (i : ℚ)) ∧
    (∀ s rng q, getCategoryIndex s (.num q) = none →
      getCategoryPosition s (.num q) = some q ∧ cat_r2c s rng (.num q) = some q) ∧
    (∀ s rng v, getCategoryIndex s v = none → isNumericJV v = false →
      getCategoryPosition s v = none ∧
      cat_r2c s rng v = fraction2rCat s rng (1 / 2) ∧
      (∀ b m, cat_d2p s rng b m v = l2p b m (fraction2rCat s rng (1 / 2)))) ∧
    (∀ s v, (jsLookup s.categoriesMap v).isSome ∨ isValidCategory v = false →
      (setCategoryIndex s v).1 = s) ∧
    (∀ s v, isValidCategory v = true → jsLookup s.categoriesMap v = none →
      (setCategoryIndex s v).1.categories = s.categories ++ [v]) ∧
    (∀ s rng q, mc_r2c s rng (.num q) = some q) ∧
    (∀ s rng v, isNumericJV v = false →
      mc_r2c s rng v = fraction2rMC s rng (1 / 2) ∧
      (∀ b m, mc_d2p s rng b m v = l2p b m (fraction2rMC s rng (1 / 2)))) := by
  refine ⟨?_, ?_, ?_, ?_, ?_, ?_, ?_⟩
  · intro s rng v i h
    constructor
    · simp [getCategoryPosition, h]
    · simp [cat_r2c, getCategoryPosition, h]
  · intro s rng q h
    constructor
    · simp [getCategoryPosition, h]
    · simp [cat_r2c, getCategoryPosition, h]
  · intro s rng v h1 h2
    cases v with
    | num q => simp [isNumericJV] at h2
    | str t =>
      refine ⟨by simp [getCategoryPosition, h1], ?_, ?_⟩
      · simp [cat_r2c, getCategoryPosition, h1]
      · intro b m
        rw [cat_d2p]
        congr 1
        simp [cat_r2c, getCategoryPosition, h1]
    | null =>
      refine ⟨by simp [getCategoryPosition, h1], ?_, ?_⟩
      · simp [cat_r2c, getCategoryPosition, h1]
      · intro b m
        rw [cat_d2p]
        congr 1
        simp [cat_r2c, getCategoryPosition, h1]
  · intro s v h
    rcases h with h | h
    · rw [Option.isSome_iff_exists] at h
      obtain ⟨i, hi⟩ := h
      by_cases hval : isValidCategory v = true
      · simp [setCategoryIndex, hval, hi]
      · simp [setCategoryIndex, hval]
    · simp [setCategoryIndex, h]
  · intro s v hval hl
    simp [setCategoryIndex, hval, hl]
  · intro s rng q
    simp [mc_r2c, getCategoryPositionMC]
  · intro s rng v h
    cases v with
    | num q => simp [isNumericJV] at h
    | str t => exact ⟨by simp [mc_r2c, getCategoryPositionMC], fun b m => rfl⟩
    | null => exact ⟨by simp [mc_r2c, getCategoryPositionMC], fun b m => rfl⟩

/-- Claim C10, witness: registry-preserving lookups at a registered label
and the midpoint fallback at an unregistered one. -/
theorem c10_positional_conversions_read_only_witness :
    (getCategoryIndex (⟨[.str "a"], [(.str "a", 0)]⟩ : CatState) (.str "a") =
        some 0 ∧
      getCategoryPosition ⟨[.str "a"], [(.str "a", 0)]⟩ (.str "a") =
        some ((0 : ℕ) : ℚ) ∧
      cat_r2c ⟨[.str "a"], [(.str "a", 0)]⟩ (.num 0, .num 1) (.str "a") =
        some ((0 : ℕ) : ℚ)) ∧
    (getCategoryIndex (⟨[.str "a"], [(.str "a", 0)]⟩ : CatState) (.str "b") =
        none ∧
      isNumericJV (.str "b") = false ∧
      cat_r2c ⟨[.str "a"], [(.str "a", 0)]⟩ (.num 0, .num 1) (.str "b") =
        fraction2rCat ⟨[.str "a"], [(.str "a", 0)]⟩ (.num 0, .num 1) (1 / 2)) :=
  ⟨⟨by decide,
    (c10_positional_conversions_read_only.1 ⟨[.str "a"], [(.str "a", 0)]⟩
      (.num 0, .num 1) (.str "a") 0 (by decide)).1,
    (c10_positional_conversions_read_only.1 ⟨[.str "a"], [(.str "a", 0)]⟩
      (.num 0, .num 1) (.str "a") 0 (by decide)).2⟩,
   ⟨by decide, by decide,
    (c10_positional_conversions_read_only.2.2.1 ⟨[.str "a"], [(.str "a", 0)]⟩
      (.num 0, .num 1) (.str "b") (by decide) (by decide)).2.1⟩⟩

end SetConvert
